import Mathlib

/-!
Shallow embedding of `src/app/ai_model.py` (food-dish estimation core):
the label normalizer `_normalize`, the score aggregator
`FoodEstimator.estimate`, and the static tables `CANDIDATES`,
`DEFAULT_GRAMS`, `ALIASES`.

Strings are modelled as lists of Unicode code points (`List Nat`); the Python functions
`str.strip`, `str.lower` and `str.title` are modelled on the ASCII range.
Confidences and weights are modelled as exact rationals.  Model invocations
are side-effecting calls in the source; the aggregator is embedded as a pure
function of the per-model invocation outcomes (`Except Unit` represents a
raised exception).  The `preview_image_id` field (a fresh uuid per call)
and the image-decoding step are not modelled.
-/

namespace Gymmis

/-- Python strings as lists of Unicode code points. -/
abbrev Label := List Nat

/-- Code points of a string literal. -/
def S (s : String) : Label := s.data.map Char.toNat

/-- ASCII whitespace: the characters removed by Python `str.strip()`. -/
def isWS (c : Nat) : Bool := decide (c = 32 ∨ (9 ≤ c ∧ c ≤ 13))

/-- Python `str.lower`, per character (ASCII range). -/
def lowerChar (c : Nat) : Nat := if 65 ≤ c ∧ c ≤ 90 then c + 32 else c

/-- Python `str.upper`, per character (ASCII range). -/
def upperChar (c : Nat) : Nat := if 97 ≤ c ∧ c ≤ 122 then c - 32 else c

/-- ASCII cased character (a letter), as used by Python `str.title`. -/
def isAlphaN (c : Nat) : Bool := decide ((65 ≤ c ∧ c ≤ 90) ∨ (97 ≤ c ∧ c ≤ 122))

/-- Python `str.lower`. -/
def pyLower (s : Label) : Label := s.map lowerChar

/-- Python `str.strip()`: drop whitespace from both ends. -/
def pyStrip (s : Label) : Label :=
  ((s.dropWhile isWS).reverse.dropWhile isWS).reverse

/-- Python `str.title` worker: `prev` records whether the previous character
was cased; a cased character after a non-cased one is uppercased, any other
cased character is lowercased. -/
def titleAux : Bool → Label → Label
  | _, [] => []
  | prev, c :: cs => (if prev then lowerChar c else upperChar c) :: titleAux (isAlphaN c) cs

/-- Python `str.title`. -/
def pyTitle (s : Label) : Label := titleAux false s

/-- Does `s` start with the pattern `pat`? -/
def startsWithL : Label → Label → Bool
  | _, [] => true
  | [], _ :: _ => false
  | a :: as, b :: bs => a == b && startsWithL as bs

/-- Python substring containment `pat in s`. -/
def hasSub : Label → Label → Bool
  | [], pat => pat.isEmpty
  | s@(_ :: as), pat => startsWithL s pat || hasSub as pat

/-- Association-list lookup; embeds Python `dict` key access (the static
tables below have pairwise distinct keys, so first match is dict lookup). -/
def assocLookup {α : Type} : List (Label × α) → Label → Option α
  | [], _ => none
  | (k, v) :: rest, s => if s = k then some v else assocLookup rest s

/-- The canonical dish-name vocabulary `CANDIDATES` (ai_model.py lines 22-45). -/
def CANDIDATES : List Label := [
  S "Oatmeal", S "Porridge", S "Yogurt Parfait", S "Acai Bowl", S "Smoothie Bowl",
  S "Avocado Toast", S "Grilled Cheese", S "Chicken Wrap", S "Beef Wrap", S "Veggie Wrap",
  S "Chicken & Rice", S "Beef & Rice", S "Rice (cooked)", S "Chicken Breast", S "Beef Steak",
  S "Omelette", S "Egg", S "Scrambled Eggs",
  S "Caesar Salad", S "Greek Salad", S "Garden Salad",
  S "Pasta", S "Spaghetti", S "Mac and Cheese",
  S "Burger", S "Sandwich", S "Turkey Sandwich", S "Ham Sandwich", S "Club Sandwich",
  S "Taco", S "Burrito", S "Quesadilla",
  S "Fries", S "Soup", S "Sushi", S "Steak",
  S "Pizza", S "Pepperoni Pizza", S "Cheese Pizza",
  S "Bagel with Cream Cheese", S "Peanut Butter Toast",
  S "Granola with Milk", S "Cereal with Milk",
  S "Chicken Bowl", S "Beef Bowl", S "Veggie Bowl",
  S "Biryani", S "Dosa", S "Idli", S "Poori", S "Paratha", S "Roti", S "Dal", S "Paneer", S "Samosa",
  S "Masala Dosa", S "Chicken Curry", S "Mutton Curry", S "Fish Curry", S "Veg Curry",
  S "Chole", S "Rajma", S "Upma", S "Vada", S "Pav Bhaji", S "Poha", S "Kheer", S "Gulab Jamun",
  S "Curd (yogurt)"]

/-- The `DEFAULT_GRAMS` table (ai_model.py lines 48-71). -/
def DEFAULT_GRAMS : List (Label × Nat) := [
  (S "Oatmeal", 100), (S "Porridge", 250), (S "Yogurt Parfait", 200), (S "Acai Bowl", 300),
  (S "Smoothie Bowl", 300),
  (S "Avocado Toast", 120), (S "Grilled Cheese", 170),
  (S "Chicken Wrap", 250), (S "Beef Wrap", 260), (S "Veggie Wrap", 240),
  (S "Chicken & Rice", 100), (S "Beef & Rice", 100),
  (S "Rice (cooked)", 180), (S "Chicken Breast", 150), (S "Beef Steak", 180),
  (S "Omelette", 140), (S "Egg", 50), (S "Scrambled Eggs", 150),
  (S "Caesar Salad", 220), (S "Greek Salad", 220), (S "Garden Salad", 220),
  (S "Pasta", 220), (S "Spaghetti", 220), (S "Mac and Cheese", 250),
  (S "Burger", 180), (S "Sandwich", 160), (S "Turkey Sandwich", 170), (S "Ham Sandwich", 170),
  (S "Club Sandwich", 220),
  (S "Taco", 120), (S "Burrito", 250), (S "Quesadilla", 220),
  (S "Fries", 150), (S "Soup", 300), (S "Sushi", 200), (S "Steak", 200),
  (S "Pizza", 120), (S "Pepperoni Pizza", 130), (S "Cheese Pizza", 120),
  (S "Bagel with Cream Cheese", 120), (S "Peanut Butter Toast", 100),
  (S "Granola with Milk", 200), (S "Cereal with Milk", 200),
  (S "Chicken Bowl", 100), (S "Beef Bowl", 100), (S "Veggie Bowl", 100),
  (S "Biryani", 100), (S "Dosa", 120), (S "Idli", 50), (S "Poori", 60), (S "Paratha", 80),
  (S "Roti", 50), (S "Dal", 180), (S "Paneer", 120),
  (S "Samosa", 80), (S "Masala Dosa", 140), (S "Chicken Curry", 220), (S "Mutton Curry", 220),
  (S "Fish Curry", 220),
  (S "Veg Curry", 220), (S "Chole", 220), (S "Rajma", 220), (S "Upma", 200), (S "Vada", 90),
  (S "Pav Bhaji", 220), (S "Poha", 160),
  (S "Kheer", 150), (S "Gulab Jamun", 70), (S "Curd (yogurt)", 100)]

/-- The `ALIASES` table (ai_model.py lines 74-113). -/
def ALIASES : List (Label × Label) := [
  (S "oatmeal", S "Oatmeal"), (S "porridge", S "Oatmeal"), (S "oats", S "Oatmeal"),
  (S "oat porridge", S "Oatmeal"),
  (S "banana oatmeal", S "Oatmeal"), (S "blueberry oatmeal", S "Oatmeal"),
  (S "omelet", S "Omelette"), (S "omelette", S "Omelette"),
  (S "scrambled egg", S "Scrambled Eggs"), (S "scrambled eggs", S "Scrambled Eggs"),
  (S "fried egg", S "Egg"), (S "boiled egg", S "Egg"), (S "egg", S "Egg"),
  (S "avocado toast", S "Avocado Toast"), (S "smashed avocado toast", S "Avocado Toast"),
  (S "grilled_cheese_sandwich", S "Grilled Cheese"), (S "grilled cheese", S "Grilled Cheese"),
  (S "peanut butter toast", S "Peanut Butter Toast"),
  (S "bagel with cream cheese", S "Bagel with Cream Cheese"),
  (S "turkey sandwich", S "Turkey Sandwich"), (S "ham sandwich", S "Ham Sandwich"),
  (S "club sandwich", S "Club Sandwich"),
  (S "sandwich", S "Sandwich"),
  (S "acai bowl", S "Acai Bowl"), (S "açaí bowl", S "Acai Bowl"),
  (S "smoothie bowl", S "Smoothie Bowl"),
  (S "chicken bowl", S "Chicken Bowl"), (S "beef bowl", S "Beef Bowl"),
  (S "veggie bowl", S "Veggie Bowl"),
  (S "chicken wrap", S "Chicken Wrap"), (S "chicken caesar wrap", S "Chicken Wrap"),
  (S "beef wrap", S "Beef Wrap"),
  (S "veggie wrap", S "Veggie Wrap"), (S "turkey wrap", S "Turkey Sandwich"),
  (S "chicken rice", S "Chicken & Rice"), (S "chicken and rice", S "Chicken & Rice"),
  (S "rice and chicken", S "Chicken & Rice"),
  (S "beef rice", S "Beef & Rice"), (S "beef and rice", S "Beef & Rice"),
  (S "rice and beef", S "Beef & Rice"),
  (S "white rice", S "Rice (cooked)"), (S "steamed rice", S "Rice (cooked)"),
  (S "fried rice", S "Rice (cooked)"),
  (S "chicken breast", S "Chicken Breast"), (S "grilled chicken", S "Chicken Breast"),
  (S "butter chicken", S "Chicken Curry"),
  (S "steak", S "Steak"), (S "beef steak", S "Beef Steak"),
  (S "caesar salad", S "Caesar Salad"), (S "greek salad", S "Greek Salad"),
  (S "garden salad", S "Garden Salad"), (S "house salad", S "Garden Salad"),
  (S "spaghetti", S "Spaghetti"), (S "macaroni and cheese", S "Mac and Cheese"),
  (S "mac & cheese", S "Mac and Cheese"),
  (S "pepperoni pizza", S "Pepperoni Pizza"), (S "cheese pizza", S "Cheese Pizza"),
  (S "pizza", S "Pizza"),
  (S "taco", S "Taco"), (S "burrito", S "Burrito"), (S "quesadilla", S "Quesadilla"),
  (S "granola with milk", S "Granola with Milk"), (S "cereal with milk", S "Cereal with Milk"),
  (S "cereal", S "Cereal with Milk"),
  (S "curd", S "Curd (yogurt)"), (S "yoghurt", S "Curd (yogurt)"), (S "naan", S "Roti"),
  (S "chapati", S "Roti"), (S "phulka", S "Roti"),
  (S "chicken curry", S "Chicken Curry"), (S "veg curry", S "Veg Curry")]

/-- First-match evaluation of an ordered list of (condition, result) pairs:
the shape of the `if ... return ...` chain in `_normalize`. -/
def firstMatch : List (Bool × Label) → Option Label
  | [] => none
  | (c, v) :: rest => if c then some v else firstMatch rest

/-- The ordered substring rules of `_normalize` (ai_model.py lines 120-143),
one `(condition, result)` pair per `if "..." in s: return "..."` line, first
satisfied rule wins; `none` when no rule matches. -/
def fuzzyRules (s : Label) : Option Label := firstMatch [
  (hasSub s (S "oat") || hasSub s (S "porridge"), S "Oatmeal"),
  (hasSub s (S "avocado") && hasSub s (S "toast"), S "Avocado Toast"),
  (hasSub s (S "grilled") && hasSub s (S "cheese"), S "Grilled Cheese"),
  (hasSub s (S "wrap") && hasSub s (S "chicken"), S "Chicken Wrap"),
  (hasSub s (S "wrap") && hasSub s (S "beef"), S "Beef Wrap"),
  (hasSub s (S "wrap") && (hasSub s (S "veg") || hasSub s (S "veget")), S "Veggie Wrap"),
  (hasSub s (S "chicken") && hasSub s (S "rice"), S "Chicken & Rice"),
  (hasSub s (S "beef") && hasSub s (S "rice"), S "Beef & Rice"),
  (hasSub s (S "rice"), S "Rice (cooked)"),
  (hasSub s (S "chicken") && !hasSub s (S "curry"), S "Chicken Breast"),
  (hasSub s (S "yogurt") && hasSub s (S "parfait"), S "Yogurt Parfait"),
  (hasSub s (S "bowl") && hasSub s (S "acai"), S "Acai Bowl"),
  (hasSub s (S "bowl") && hasSub s (S "smoothie"), S "Smoothie Bowl"),
  (hasSub s (S "caesar") && hasSub s (S "salad"), S "Caesar Salad"),
  (hasSub s (S "greek") && hasSub s (S "salad"), S "Greek Salad"),
  (hasSub s (S "salad"), S "Garden Salad"),
  (hasSub s (S "spaghetti"), S "Spaghetti"),
  (hasSub s (S "mac") && hasSub s (S "cheese"), S "Mac and Cheese"),
  (hasSub s (S "quesadilla"), S "Quesadilla"),
  (hasSub s (S "taco"), S "Taco"),
  (hasSub s (S "burrito"), S "Burrito"),
  (hasSub s (S "pizza") && hasSub s (S "pepperoni"), S "Pepperoni Pizza"),
  (hasSub s (S "pizza") && hasSub s (S "cheese"), S "Cheese Pizza"),
  (hasSub s (S "pizza"), S "Pizza")]

/-- Body of `_normalize` after the trim-and-lowercase step: exact alias
lookup, then the ordered substring rules, then the title-cased fallback
(ai_model.py lines 117-146; the final line of the source returns `t` whether or
not `t` is in `CANDIDATES`, kept verbatim here). -/
def normCore (s : Label) : Label :=
  match assocLookup ALIASES s with
  | some v => v
  | none =>
    match fuzzyRules s with
    | some v => v
    | none =>
      let t := pyTitle s
      if CANDIDATES.contains t then t else t

/-- The label normalizer `_normalize` (ai_model.py lines 115-146).
`none` embeds Python `None`; `(lbl or "").strip().lower()` maps both `None`
and `""` to `""`. -/
def _normalize (lbl : Option Label) : Label :=
  normCore (pyLower (pyStrip (lbl.getD [])))

/-- Environment-derived configuration of `FoodEstimator.estimate`
(ai_model.py lines 13-19); defaults are the source defaults.  `TOP_K` and
`ZS_TOP_K` are passed to the models and do not appear in the aggregation
logic, so they are not modelled. -/
structure Config where
  conf_thres : ℚ := 11/20
  w_general : ℚ := 3/5
  w_indian : ℚ := 3/5
  w_clip : ℚ := 11/10
  max_items : Nat := 4

/-- The default configuration. -/
def cfgDefault : Config := {}

/-- One raw prediction returned by a classifier pipeline.  The source reads
`pr.get("label") or pr.get("class") or ""` and `float(pr.get("score", 0))`,
so both label keys and the score may be absent. -/
structure ClsPred where
  label : Option Label := none
  cls : Option Label := none
  score : Option ℚ := none
deriving DecidableEq

/-- One prediction returned by the zero-shot pipeline; the source reads
`pr.get("label")` and `float(pr.get("score", 0))`.  The zero-shot model is
invoked with `candidate_labels=CANDIDATES` and its labels are used without
normalization. -/
structure ZsPred where
  label : Label
  score : Option ℚ := none
deriving DecidableEq

/-- `raw = pr.get("label") or pr.get("class") or ""` (Python `or` takes the
first truthy value; the empty string is falsy). -/
def predRaw (pr : ClsPred) : Label :=
  match pr.label with
  | some l => if l = [] then pr.cls.getD [] else l
  | none => pr.cls.getD []

/-- `scores[norm] = max(scores.get(norm, 0.0), conf * w)`: insertion-ordered
association-list update mirroring the Python dict. -/
def updateScore : List (Label × ℚ) → Label → ℚ → List (Label × ℚ)
  | [], name, v => [(name, max 0 v)]
  | (k, x) :: rest, name, v =>
    if k = name then (k, max x v) :: rest else (k, x) :: updateScore rest name v

/-- The inner loop over the predictions of one classifier
(ai_model.py lines 195-199). -/
def runPreds (w : ℚ) (sc : List (Label × ℚ)) (preds : List ClsPred) : List (Label × ℚ) :=
  preds.foldl (fun sc pr => updateScore sc (_normalize (some (predRaw pr))) ((pr.score.getD 0) * w)) sc

/-- `pipe_weights = [W_GENERAL, W_INDIAN] + [0.6]*(max(0, len(cls_pipes)-2))`
(the extra weight 0.6 is a literal in the source, not configuration). -/
def pipeWeights (cfg : Config) (n : Nat) : List ℚ :=
  [cfg.w_general, cfg.w_indian] ++ List.replicate (n - 2) (3/5)

/-- The classifier stage (ai_model.py lines 190-201): each configured
classifier invocation either raises (`.error`, caught and skipped) or
returns its prediction list. -/
def runCls (cfg : Config) (results : List (Except Unit (List ClsPred))) : List (Label × ℚ) :=
  (results.zip (pipeWeights cfg results.length)).foldl
    (fun sc rw =>
      match rw.1 with
      | .error _ => sc
      | .ok preds => runPreds rw.2 sc preds) []

/-- The zero-shot stage (ai_model.py lines 204-213): absent model, raised
invocation (caught and skipped), or a prediction list merged with weight
`W_CLIP`. -/
def runZs (cfg : Config) (zs : Option (Except Unit (List ZsPred)))
    (sc : List (Label × ℚ)) : List (Label × ℚ) :=
  match zs with
  | none => sc
  | some (.error _) => sc
  | some (.ok zpreds) =>
    zpreds.foldl (fun sc pr => updateScore sc pr.label ((pr.score.getD 0) * cfg.w_clip)) sc

/-- Insert one scored entry into a descending-ordered list, before the first
entry of smaller-or-equal score, so that equal scores keep their original
relative order. -/
def insertRanked (x : Label × ℚ) : List (Label × ℚ) → List (Label × ℚ)
  | [] => [x]
  | y :: rest => if x.2 ≥ y.2 then x :: y :: rest else y :: insertRanked x rest

/-- Stable descending sort by score, embedding the stable Python call
`sorted(scores.items(), key=lambda kv: kv[1], reverse=True)`. -/
def sortDesc : List (Label × ℚ) → List (Label × ℚ)
  | [] => []
  | x :: rest => insertRanked x (sortDesc rest)

/-- Nearest integer with ties to even, the rounding used by Python `round`. -/
def roundHE (q : ℚ) : ℤ :=
  let f : ℤ := q.num.fdiv (q.den : ℤ)
  let r : ℚ := q - (f : ℚ)
  if r < 1/2 then f
  else if 1/2 < r then f + 1
  else if f % 2 = 0 then f else f + 1

/-- Python `round(x, 4)` on exact rationals. -/
def roundQ4 (q : ℚ) : ℚ := (roundHE (q * 10000) : ℚ) / 10000

/-- `int(DEFAULT_GRAMS.get(name, 100))`. -/
def gramsOf (name : Label) : Nat := (assocLookup DEFAULT_GRAMS name).getD 100

/-- One entry of the `items` list of the result. -/
structure Item where
  name : Label
  default_grams : Nat
  confidence : ℚ
deriving DecidableEq

/-- The estimation result; the per-call `preview_image_id` is not
modelled. -/
structure EstimationResult where
  dish_name : Label
  items : List Item
deriving DecidableEq

/-- The headline computation (ai_model.py lines 227-229): the name of the
top item, replaced by `"<first> or <second>"` when the top confidence is below
the threshold and a second item exists.  (`items` is never empty at this
point in the source; the `[]` case is unreachable.) -/
def pyHeadline (thres : ℚ) (items : List Item) : Label :=
  match items with
  | [] => []
  | [i] => i.name
  | i :: j :: _ => if i.confidence < thres then i.name ++ S " or " ++ j.name else i.name

/-- `ranked = sorted(scores.items(), key=lambda kv: kv[1], reverse=True)`
over the merged scores of both stages (ai_model.py line 215). -/
def rankedScores (cfg : Config) (cls : List (Except Unit (List ClsPred)))
    (zs : Option (Except Unit (List ZsPred))) : List (Label × ℚ) :=
  sortDesc (runZs cfg zs (runCls cfg cls))

/-- The `items` list built from `ranked[:MAX_ITEMS]`
(ai_model.py lines 216-222). -/
def itemsOf (cfg : Config) (cls : List (Except Unit (List ClsPred)))
    (zs : Option (Except Unit (List ZsPred))) : List Item :=
  ((rankedScores cfg cls zs).take cfg.max_items).map
    (fun kv => Item.mk kv.1 (gramsOf kv.1) (roundQ4 kv.2))

/-- `if not items: items = [{"name":"Meal","default_grams":150,"confidence":0.0}]`
(ai_model.py lines 224-225). -/
def finalItems (cfg : Config) (cls : List (Except Unit (List ClsPred)))
    (zs : Option (Except Unit (List ZsPred))) : List Item :=
  if (itemsOf cfg cls zs).isEmpty then [Item.mk (S "Meal") 150 0] else itemsOf cfg cls zs

/-- The pure aggregation core of `FoodEstimator.estimate`
(ai_model.py lines 186-235), as a function of the per-model invocation
outcomes: merge scores, rank, take `MAX_ITEMS`, annotate grams and rounded
confidence, fall back to the `"Meal"` item when empty, derive the headline. -/
def aggregate (cfg : Config) (cls : List (Except Unit (List ClsPred)))
    (zs : Option (Except Unit (List ZsPred))) : EstimationResult :=
  EstimationResult.mk (pyHeadline cfg.conf_thres (finalItems cfg cls zs)) (finalItems cfg cls zs)

/-- Python truthiness of the optional string / bytes arguments:
`None` and the empty string are falsy. -/
def truthyOpt : Option (List Nat) → Bool
  | none => false
  | some l => !l.isEmpty

/-- `FoodEstimator.estimate` (ai_model.py lines 180-235): reject the call
(`ValueError`) when neither an image path nor image bytes are supplied,
otherwise run the aggregation pipeline on the model outcomes.  Image
decoding is out of scope (the aggregator never inspects the image). -/
def estimate (cfg : Config) (image_path image_bytes : Option (List Nat))
    (cls : List (Except Unit (List ClsPred)))
    (zs : Option (Except Unit (List ZsPred))) : Except Unit EstimationResult :=
  if !truthyOpt image_path && !truthyOpt image_bytes then .error ()
  else .ok (aggregate cfg cls zs)

/-! ### Character-level lemmas -/

theorem lowerChar_lowerChar (c : Nat) : lowerChar (lowerChar c) = lowerChar c := by
  unfold lowerChar
  split_ifs <;> omega

theorem lowerChar_upperChar (c : Nat) : lowerChar (upperChar c) = lowerChar c := by
  unfold lowerChar upperChar
  split_ifs <;> omega

theorem isWS_lowerChar (c : Nat) : isWS (lowerChar c) = isWS c := by
  unfold isWS lowerChar
  split_ifs with h
  · rw [decide_eq_decide]; omega
  · rfl

theorem isWS_upperChar (c : Nat) : isWS (upperChar c) = isWS c := by
  unfold isWS upperChar
  split_ifs with h
  · rw [decide_eq_decide]; omega
  · rfl

/-! ### Lemmas about `pyLower`, `pyTitle`, `pyStrip` -/

theorem pyLower_pyLower (s : Label) : pyLower (pyLower s) = pyLower s := by
  simp only [pyLower, List.map_map]
  exact List.map_congr_left (fun c _ => lowerChar_lowerChar c)

theorem pyLower_titleAux (b : Bool) (s : Label) : pyLower (titleAux b s) = pyLower s := by
  induction s generalizing b with
  | nil => rfl
  | cons c cs ih =>
    simp only [titleAux, pyLower, List.map_cons, List.map] at *
    refine congrArg₂ _ ?_ (ih (isAlphaN c))
    cases b with
    | true => simp [lowerChar_lowerChar]
    | false => simp [lowerChar_upperChar]

theorem maskWS_pyLower (s : Label) : (pyLower s).map isWS = s.map isWS := by
  simp only [pyLower, List.map_map]
  exact List.map_congr_left (fun c _ => isWS_lowerChar c)

theorem maskWS_titleAux (b : Bool) (s : Label) : (titleAux b s).map isWS = s.map isWS := by
  induction s generalizing b with
  | nil => rfl
  | cons c cs ih =>
    simp only [titleAux, List.map_cons]
    refine congrArg₂ _ ?_ (ih (isAlphaN c))
    cases b with
    | true => simp [isWS_lowerChar]
    | false => simp [isWS_upperChar]

theorem dropWhileWS_dropWhileWS (l : Label) :
    (l.dropWhile isWS).dropWhile isWS = l.dropWhile isWS := by
  induction l with
  | nil => rfl
  | cons c cs ih =>
    by_cases h : isWS c
    · simp [List.dropWhile_cons, h, ih]
    · simp [List.dropWhile_cons, h]

theorem dropWhileWS_eq_self_of_mask {l m : Label} (h : l.map isWS = m.map isWS)
    (hm : m.dropWhile isWS = m) : l.dropWhile isWS = l := by
  cases l with
  | nil => rfl
  | cons a as =>
    cases m with
    | nil => simp at h
    | cons b bs =>
      simp only [List.map_cons, List.cons.injEq] at h
      have hb : isWS b = false := by
        by_contra hb
        rw [Bool.not_eq_false] at hb
        rw [List.dropWhile_cons, if_pos hb] at hm
        have := (List.dropWhile_suffix (l := bs) isWS).sublist.length_le
        rw [hm] at this
        simp at this
      rw [List.dropWhile_cons, if_neg (by rw [h.1, hb]; simp)]

theorem pyStrip_eq_self_iff (l : Label) :
    pyStrip l = l ↔ l.dropWhile isWS = l ∧ l.reverse.dropWhile isWS = l.reverse := by
  constructor
  · intro h
    have hlen1 : (l.dropWhile isWS).length ≤ l.length :=
      (List.dropWhile_suffix isWS).sublist.length_le
    have hlen2 : (pyStrip l).length ≤ (l.dropWhile isWS).length := by
      simp only [pyStrip, List.length_reverse]
      calc ((l.dropWhile isWS).reverse.dropWhile isWS).length
          ≤ (l.dropWhile isWS).reverse.length :=
            (List.dropWhile_suffix isWS).sublist.length_le
        _ = (l.dropWhile isWS).length := List.length_reverse _
    rw [h] at hlen2
    have hdw : l.dropWhile isWS = l :=
      (List.dropWhile_suffix isWS).sublist.eq_of_length (le_antisymm hlen1 hlen2)
    refine ⟨hdw, ?_⟩
    have : pyStrip l = (l.reverse.dropWhile isWS).reverse := by rw [pyStrip, hdw]
    rw [h] at this
    have := congrArg List.reverse this
    simpa using this.symm
  · intro ⟨h1, h2⟩
    rw [pyStrip, h1, h2, List.reverse_reverse]

theorem pyStrip_eq_self_of_mask {l m : Label} (h : l.map isWS = m.map isWS)
    (hm : pyStrip m = m) : pyStrip l = l := by
  rw [pyStrip_eq_self_iff] at hm ⊢
  have hrev : l.reverse.map isWS = m.reverse.map isWS := by
    rw [List.map_reverse, List.map_reverse, h]
  exact ⟨dropWhileWS_eq_self_of_mask h hm.1, dropWhileWS_eq_self_of_mask hrev hm.2⟩

theorem pyStrip_pyStrip (l : Label) : pyStrip (pyStrip l) = pyStrip l := by
  rw [pyStrip_eq_self_iff]
  constructor
  · -- `pyStrip l` is a prefix of `l.dropWhile isWS`, whose head is not whitespace.
    have hpre : pyStrip l <+: l.dropWhile isWS := by
      have h0 : (l.dropWhile isWS).reverse.dropWhile isWS <:+ (l.dropWhile isWS).reverse :=
        List.dropWhile_suffix isWS
      have h1 := List.reverse_prefix.mpr h0
      rwa [List.reverse_reverse] at h1
    cases hps : pyStrip l with
    | nil => rfl
    | cons a as =>
      rw [hps] at hpre
      obtain ⟨t, ht⟩ := hpre
      have ha : isWS a = false := by
        rcases hdw : l.dropWhile isWS with _ | ⟨b, bs⟩
        · rw [hdw] at ht; simp at ht
        · rw [hdw] at ht
          have hb : isWS b = false := by
            by_contra hb
            rw [Bool.not_eq_false] at hb
            have := dropWhileWS_dropWhileWS l
            rw [hdw, List.dropWhile_cons, if_pos hb] at this
            have hle := (List.dropWhile_suffix (l := bs) isWS).sublist.length_le
            rw [this] at hle
            simp at hle
          have : a = b := by
            have := congrArg (List.head?) ht
            simpa using this
          rw [this, hb]
      rw [List.dropWhile_cons, if_neg (by rw [ha]; simp)]
  · rw [pyStrip]
    simp only [List.reverse_reverse]
    exact dropWhileWS_dropWhileWS _

/-! ### Lemmas about the normalizer -/

theorem assocLookup_mem {α : Type} {t : List (Label × α)} {s : Label} {v : α}
    (h : assocLookup t s = some v) : (s, v) ∈ t := by
  induction t with
  | nil => simp [assocLookup] at h
  | cons kv rest ih =>
    obtain ⟨k, w⟩ := kv
    by_cases hk : s = k
    · subst hk
      rw [assocLookup, if_pos rfl] at h
      obtain rfl : w = v := by injection h
      exact List.mem_cons_self _ _
    · rw [assocLookup, if_neg hk] at h
      exact List.mem_cons_of_mem _ (ih h)

theorem alias_values_in_CANDIDATES : ∀ kv ∈ ALIASES, kv.2 ∈ CANDIDATES := by decide

theorem firstMatch_mem_values {L : List (Bool × Label)} {v : Label}
    (h : firstMatch L = some v) : v ∈ L.map Prod.snd := by
  induction L with
  | nil => exact absurd h (by simp [firstMatch])
  | cons cv rest ih =>
    obtain ⟨c, w⟩ := cv
    cases c with
    | false =>
      rw [firstMatch, if_neg (by simp)] at h
      exact List.mem_cons_of_mem _ (ih h)
    | true =>
      rw [firstMatch, if_pos rfl] at h
      injection h with h2
      subst h2
      exact List.mem_cons_self _ _

theorem fuzzyRules_in_CANDIDATES {s v : Label} (h : fuzzyRules s = some v) :
    v ∈ CANDIDATES := by
  rw [fuzzyRules] at h
  have hv := firstMatch_mem_values h
  simp only [List.map_cons, List.map_nil] at hv
  fin_cases hv <;> decide

theorem normCore_eq_of_alias {s v : Label} (halias : assocLookup ALIASES s = some v) :
    normCore s = v := by
  rw [normCore, halias]

theorem normCore_eq_of_fuzzy {s v : Label} (halias : assocLookup ALIASES s = none)
    (hf : fuzzyRules s = some v) : normCore s = v := by
  rw [normCore, halias, hf]

theorem normCore_cases (s : Label) :
    normCore s ∈ CANDIDATES ∨ normCore s = pyTitle s := by
  unfold normCore
  cases halias : assocLookup ALIASES s with
  | some v => exact Or.inl (alias_values_in_CANDIDATES _ (assocLookup_mem halias))
  | none =>
    cases hrules : fuzzyRules s with
    | some v => exact Or.inl (fuzzyRules_in_CANDIDATES hrules)
    | none => exact Or.inr (ite_self _)

/-- Every alias key containing both `"chicken"` and `"rice"` maps to
`"Chicken & Rice"`. -/
theorem alias_chicken_rice : ∀ kv ∈ ALIASES,
    hasSub kv.1 (S "chicken") = true → hasSub kv.1 (S "rice") = true →
    kv.2 = S "Chicken & Rice" := by decide

/-- On a string containing `"chicken"` and `"rice"`, the substring rules
stop at one of the first seven rules. -/
theorem fuzzyRules_chicken_rice_range {s : Label}
    (hc : hasSub s (S "chicken") = true) (hr : hasSub s (S "rice") = true) :
    fuzzyRules s = some (S "Oatmeal") ∨ fuzzyRules s = some (S "Avocado Toast") ∨
    fuzzyRules s = some (S "Grilled Cheese") ∨ fuzzyRules s = some (S "Chicken Wrap") ∨
    fuzzyRules s = some (S "Beef Wrap") ∨ fuzzyRules s = some (S "Veggie Wrap") ∨
    fuzzyRules s = some (S "Chicken & Rice") := by
  simp only [fuzzyRules, firstMatch, hc, hr, Bool.true_and, Bool.and_true, if_true]
  split_ifs <;> simp

/-- With the earlier rules all failing, the `"chicken"`-and-`"rice"` rule
fires. -/
theorem fuzzyRules_chicken_rice {s : Label}
    (hc : hasSub s (S "chicken") = true) (hr : hasSub s (S "rice") = true)
    (ho : hasSub s (S "oat") = false) (hp : hasSub s (S "porridge") = false)
    (hat : (hasSub s (S "avocado") && hasSub s (S "toast")) = false)
    (hgc : (hasSub s (S "grilled") && hasSub s (S "cheese")) = false)
    (hw : hasSub s (S "wrap") = false) :
    fuzzyRules s = some (S "Chicken & Rice") := by
  simp only [fuzzyRules, firstMatch, hc, hr, ho, hp, hat, hgc, hw, Bool.false_or,
    Bool.or_false, Bool.false_and, Bool.and_false, Bool.true_and, Bool.and_true,
    if_true, if_false]
  simp

/-! ### Lemmas about score aggregation -/

theorem updateScore_idem (sc : List (Label × ℚ)) (n : Label) (v : ℚ) :
    updateScore (updateScore sc n v) n v = updateScore sc n v := by
  induction sc with
  | nil => simp [updateScore, max_assoc, max_self]
  | cons kv rest ih =>
    obtain ⟨k, x⟩ := kv
    by_cases hk : k = n
    · simp [updateScore, hk, max_assoc, max_self]
    · simp [updateScore, hk, ih]

theorem updateScore_keys {sc : List (Label × ℚ)} {n : Label} {v : ℚ} {kv : Label × ℚ}
    (h : kv ∈ updateScore sc n v) : kv.1 = n ∨ kv.1 ∈ sc.map Prod.fst := by
  induction sc with
  | nil =>
    have h1 := List.mem_singleton.mp (by simpa [updateScore] using h)
    exact Or.inl (by rw [h1])
  | cons kv0 rest ih =>
    obtain ⟨k, x⟩ := kv0
    by_cases hk : k = n
    · rw [updateScore, if_pos hk] at h
      rcases List.mem_cons.mp h with rfl | h1
      · exact Or.inl hk
      · exact Or.inr (List.mem_cons_of_mem _ (List.mem_map_of_mem _ h1))
    · rw [updateScore, if_neg hk] at h
      rcases List.mem_cons.mp h with rfl | h1
      · exact Or.inr (by simp)
      · rcases ih h1 with h2 | h2
        · exact Or.inl h2
        · exact Or.inr (List.mem_cons_of_mem _ h2)

theorem updateScore_keysMap {sc : List (Label × ℚ)} {n : Label} {v : ℚ} {a : Label}
    (h : a ∈ (updateScore sc n v).map Prod.fst) : a = n ∨ a ∈ sc.map Prod.fst := by
  rcases List.mem_map.mp h with ⟨kv, hkv, hfst⟩
  rcases updateScore_keys hkv with h1 | h1
  · exact Or.inl (hfst ▸ h1)
  · exact Or.inr (hfst ▸ h1)

theorem runPreds_keysMap {w : ℚ} {preds : List ClsPred} {sc : List (Label × ℚ)}
    {a : Label} (h : a ∈ (runPreds w sc preds).map Prod.fst) :
    a ∈ sc.map Prod.fst ∨ ∃ pr ∈ preds, a = _normalize (some (predRaw pr)) := by
  induction preds generalizing sc with
  | nil => exact Or.inl h
  | cons pr rest ih =>
    rw [runPreds, List.foldl_cons] at h
    rcases ih (h := h) with h1 | h1
    · rcases updateScore_keysMap h1 with h2 | h2
      · exact Or.inr ⟨pr, List.mem_cons_self _ _, h2⟩
      · exact Or.inl h2
    · obtain ⟨pr1, hpr1, heq⟩ := h1
      exact Or.inr ⟨pr1, List.mem_cons_of_mem _ hpr1, heq⟩

theorem foldCls_keysMap (L : List ((Except Unit (List ClsPred)) × ℚ))
    (sc : List (Label × ℚ)) {a : Label}
    (h : a ∈ (L.foldl (fun sc rw =>
      match rw.1 with
      | .error _ => sc
      | .ok preds => runPreds rw.2 sc preds) sc).map Prod.fst) :
    a ∈ sc.map Prod.fst ∨
      ∃ preds, Except.ok preds ∈ L.map Prod.fst ∧
        ∃ pr ∈ preds, a = _normalize (some (predRaw pr)) := by
  induction L generalizing sc with
  | nil => exact Or.inl h
  | cons rw0 rest ih =>
    rw [List.foldl_cons] at h
    obtain ⟨r, w⟩ := rw0
    cases r with
    | error e =>
      rcases ih _ h with h1 | ⟨preds, hmem, hpr⟩
      · exact Or.inl h1
      · exact Or.inr ⟨preds, List.mem_cons_of_mem _ hmem, hpr⟩
    | ok preds0 =>
      rcases ih _ h with h1 | ⟨preds, hmem, hpr⟩
      · rcases runPreds_keysMap h1 with h2 | ⟨pr, hpr, heq⟩
        · exact Or.inl h2
        · exact Or.inr ⟨preds0, by simp, pr, hpr, heq⟩
      · exact Or.inr ⟨preds, List.mem_cons_of_mem _ hmem, hpr⟩

theorem runCls_keysMap {cfg : Config} {results : List (Except Unit (List ClsPred))}
    {a : Label} (h : a ∈ (runCls cfg results).map Prod.fst) :
    ∃ preds, Except.ok preds ∈ results ∧
      ∃ pr ∈ preds, a = _normalize (some (predRaw pr)) := by
  rw [runCls] at h
  rcases foldCls_keysMap _ _ h with h1 | ⟨preds, hmem, hpr⟩
  · simp at h1
  · rcases List.mem_map.mp hmem with ⟨⟨r, w⟩, hrw, hfst⟩
    refine ⟨preds, ?_, hpr⟩
    have h2 := (List.of_mem_zip hrw).1
    rw [← hfst]
    simpa using h2

theorem runZs_keysMap {cfg : Config} {zs : Option (Except Unit (List ZsPred))}
    {sc : List (Label × ℚ)} {a : Label}
    (h : a ∈ (runZs cfg zs sc).map Prod.fst) :
    a ∈ sc.map Prod.fst ∨
      ∃ zpreds, zs = some (.ok zpreds) ∧ ∃ pr ∈ zpreds, a = pr.label := by
  match zs with
  | none => exact Or.inl h
  | some (.error e) => exact Or.inl h
  | some (.ok zpreds) =>
    rw [runZs] at h
    suffices hgen : ∀ (zp : List ZsPred) (sc0 : List (Label × ℚ)),
        a ∈ (zp.foldl (fun sc pr =>
          updateScore sc pr.label ((pr.score.getD 0) * cfg.w_clip)) sc0).map Prod.fst →
        a ∈ sc0.map Prod.fst ∨ ∃ pr ∈ zp, a = pr.label by
      rcases hgen zpreds sc h with h1 | ⟨pr, hpr, heq⟩
      · exact Or.inl h1
      · exact Or.inr ⟨zpreds, rfl, pr, hpr, heq⟩
    intro zp
    induction zp with
    | nil => exact fun sc0 h0 => Or.inl h0
    | cons pr rest ih =>
      intro sc0 h0
      rw [List.foldl_cons] at h0
      rcases ih _ h0 with h1 | ⟨pr1, hpr1, heq⟩
      · rcases updateScore_keysMap h1 with h2 | h2
        · exact Or.inr ⟨pr, List.mem_cons_self _ _, h2⟩
        · exact Or.inl h2
      · exact Or.inr ⟨pr1, List.mem_cons_of_mem _ hpr1, heq⟩

/-! ### Empty-aggregation lemmas -/

theorem runCls_empty {cfg : Config} {results : List (Except Unit (List ClsPred))}
    (h : ∀ r ∈ results, r = .error () ∨ r = .ok []) : runCls cfg results = [] := by
  rw [runCls]
  suffices hgen : ∀ (L : List ((Except Unit (List ClsPred)) × ℚ)),
      (∀ rw ∈ L, rw.1 = .error () ∨ rw.1 = .ok []) →
      ∀ sc : List (Label × ℚ), L.foldl (fun sc rw =>
        match rw.1 with
        | .error _ => sc
        | .ok preds => runPreds rw.2 sc preds) sc = sc by
    refine hgen _ (fun rw hrw => h _ (List.of_mem_zip hrw).1) []
  intro L hL
  induction L with
  | nil => intro sc; rfl
  | cons rw0 rest ih =>
    intro sc
    rw [List.foldl_cons]
    rcases hL _ (List.mem_cons_self _ _) with h1 | h1
    · rw [h1]
      exact ih (fun rw hrw => hL _ (List.mem_cons_of_mem _ hrw)) _
    · rw [h1]
      exact ih (fun rw hrw => hL _ (List.mem_cons_of_mem _ hrw)) _

theorem runZs_empty {cfg : Config} {zs : Option (Except Unit (List ZsPred))}
    {sc : List (Label × ℚ)}
    (h : zs = none ∨ zs = some (.error ()) ∨ zs = some (.ok [])) :
    runZs cfg zs sc = sc := by
  rcases h with h | h | h <;> rw [h] <;> rfl

/-! ### Sorting lemmas -/

theorem length_insertRanked (x : Label × ℚ) (l : List (Label × ℚ)) :
    (insertRanked x l).length = l.length + 1 := by
  induction l with
  | nil => rfl
  | cons y rest ih =>
    rw [insertRanked]
    split_ifs <;> simp [ih]

theorem mem_insertRanked {x kv : Label × ℚ} {l : List (Label × ℚ)} :
    kv ∈ insertRanked x l ↔ kv = x ∨ kv ∈ l := by
  induction l with
  | nil => simp [insertRanked]
  | cons y rest ih =>
    rw [insertRanked]
    split_ifs <;> (simp [ih]; try tauto)

theorem length_sortDesc (l : List (Label × ℚ)) : (sortDesc l).length = l.length := by
  induction l with
  | nil => rfl
  | cons x rest ih => rw [sortDesc, length_insertRanked, ih]; rfl

theorem mem_sortDesc {kv : Label × ℚ} {l : List (Label × ℚ)} :
    kv ∈ sortDesc l ↔ kv ∈ l := by
  induction l with
  | nil => simp [sortDesc]
  | cons x rest ih => rw [sortDesc, mem_insertRanked, ih, List.mem_cons]

/-! ### Claim theorems

The concrete evaluations below need the kernel to compute with `Rat`;
Batteries marks the `Rat` operations `@[irreducible]`, which only guides
elaboration, so they are locally restored to the default reducibility. -/

section ClaimTheorems

attribute [local semireducible] Rat.mul Rat.inv Rat.add Rat.sub Rat.ofScientific

/-- Claim C1, amended: if no model produces any usable label (including
when every configured model invocation raises), `estimate` does not raise
and returns a result whose items list is exactly one fallback item with name
`"Meal"`, default grams 150 (the literal in the source, not the 100 the claim
states), and confidence 0. -/
theorem C1_thm (cfg : Config) (image_path image_bytes : Option (List Nat))
    (cls : List (Except Unit (List ClsPred))) (zs : Option (Except Unit (List ZsPred)))
    (hin : truthyOpt image_path = true ∨ truthyOpt image_bytes = true)
    (hcls : ∀ r ∈ cls, r = .error () ∨ r = .ok [])
    (hzs : zs = none ∨ zs = some (.error ()) ∨ zs = some (.ok [])) :
    estimate cfg image_path image_bytes cls zs =
      .ok (EstimationResult.mk (S "Meal") [Item.mk (S "Meal") 150 0]) := by
  have hcond : (!truthyOpt image_path && !truthyOpt image_bytes) = false := by
    rcases hin with h | h <;> simp [h]
  have hsc : runZs cfg zs (runCls cfg cls) = [] := by
    rw [runCls_empty hcls, runZs_empty hzs]
  have hitems : itemsOf cfg cls zs = [] := by
    simp [itemsOf, rankedScores, hsc, sortDesc]
  have hfin : finalItems cfg cls zs = [Item.mk (S "Meal") 150 0] := by
    simp [finalItems, hitems]
  have hagg : aggregate cfg cls zs = EstimationResult.mk (S "Meal") [Item.mk (S "Meal") 150 0] := by
    rw [aggregate, hfin]
    rfl
  rw [estimate, hcond, if_neg (by decide), hagg]

/-- Witness for C1: with a supplied path, two raising classifiers and a
raising zero-shot model, `estimate` returns the single `"Meal"` item. -/
theorem C1_witness :
    (truthyOpt (some (S "photo.jpg")) = true ∨ truthyOpt (none : Option (List Nat)) = true) ∧
    estimate cfgDefault (some (S "photo.jpg")) none [.error (), .error ()] (some (.error ())) =
      .ok (EstimationResult.mk (S "Meal") [Item.mk (S "Meal") 150 0]) := by
  refine ⟨Or.inl (by decide), C1_thm _ _ _ _ _ (Or.inl (by decide)) ?_ (Or.inr (Or.inl rfl))⟩
  intro r hr
  fin_cases hr <;> exact Or.inl rfl

/-- Counterexample for C1 as frozen: the `default_grams` of the fallback item is
150 in the source (ai_model.py line 225), not 100. -/
theorem C1_counterexample :
    estimate cfgDefault (some (S "photo.jpg")) none [.error ()] none =
      .ok (EstimationResult.mk (S "Meal") [Item.mk (S "Meal") 150 0]) ∧
    (Item.mk (S "Meal") 150 0).default_grams ≠ 100 :=
  ⟨by rfl, by decide⟩

/-- Claim C2, amended: a trimmed-lowercased label containing `"chicken"`
and `"rice"` but not `"curry"` never normalizes to `"Chicken Breast"` or
`"Rice (cooked)"`; and it normalizes to `"Chicken & Rice"` provided none of
the earlier substring rules (oat/porridge, avocado-toast, grilled-cheese,
wrap) matches — the frozen claim omitted that proviso. -/
theorem C2_thm (lbl : Label)
    (hc : hasSub (pyLower (pyStrip lbl)) (S "chicken") = true)
    (hr : hasSub (pyLower (pyStrip lbl)) (S "rice") = true)
    (_hcu : hasSub (pyLower (pyStrip lbl)) (S "curry") = false) :
    (_normalize (some lbl) ≠ S "Chicken Breast" ∧ _normalize (some lbl) ≠ S "Rice (cooked)") ∧
    (hasSub (pyLower (pyStrip lbl)) (S "oat") = false →
     hasSub (pyLower (pyStrip lbl)) (S "porridge") = false →
     (hasSub (pyLower (pyStrip lbl)) (S "avocado") && hasSub (pyLower (pyStrip lbl)) (S "toast")) = false →
     (hasSub (pyLower (pyStrip lbl)) (S "grilled") && hasSub (pyLower (pyStrip lbl)) (S "cheese")) = false →
     hasSub (pyLower (pyStrip lbl)) (S "wrap") = false →
     _normalize (some lbl) = S "Chicken & Rice") := by
  set s := pyLower (pyStrip lbl) with hs
  have hnorm : _normalize (some lbl) = normCore s := by rw [_normalize, Option.getD_some]
  constructor
  · cases halias : assocLookup ALIASES s with
    | some v =>
      have hv : v = S "Chicken & Rice" :=
        alias_chicken_rice _ (assocLookup_mem halias) hc hr
      rw [hnorm, normCore_eq_of_alias halias, hv]
      exact ⟨by decide, by decide⟩
    | none =>
      rcases fuzzyRules_chicken_rice_range hc hr with h7 | h7 | h7 | h7 | h7 | h7 | h7 <;>
        (rw [hnorm, normCore_eq_of_fuzzy halias h7]; exact ⟨by decide, by decide⟩)
  · intro ho hp hat hgc hw
    cases halias : assocLookup ALIASES s with
    | some v =>
      rw [hnorm, normCore_eq_of_alias halias]
      exact alias_chicken_rice _ (assocLookup_mem halias) hc hr
    | none =>
      rw [hnorm, normCore_eq_of_fuzzy halias (fuzzyRules_chicken_rice hc hr ho hp hat hgc hw)]

/-- Witness for C2: `"chicken with rice"` contains `"chicken"` and `"rice"`,
no `"curry"`, matches no earlier rule, and normalizes to
`"Chicken & Rice"`. -/
theorem C2_witness :
    hasSub (pyLower (pyStrip (S "chicken with rice"))) (S "chicken") = true ∧
    hasSub (pyLower (pyStrip (S "chicken with rice"))) (S "rice") = true ∧
    hasSub (pyLower (pyStrip (S "chicken with rice"))) (S "curry") = false ∧
    _normalize (some (S "chicken with rice")) = S "Chicken & Rice" := by
  refine ⟨by decide, by decide, by decide, ?_⟩
  exact (C2_thm (S "chicken with rice") (by decide) (by decide) (by decide)).2
    (by decide) (by decide) (by decide) (by decide) (by decide)

/-- Counterexample for C2 as frozen: `"chicken wrap with rice"` contains
both `"chicken"` and `"rice"` and no `"curry"`, yet normalizes to
`"Chicken Wrap"` (the wrap rule precedes the rice-combo rule), not
`"Chicken & Rice"`. -/
theorem C2_counterexample :
    hasSub (pyLower (pyStrip (S "chicken wrap with rice"))) (S "chicken") = true ∧
    hasSub (pyLower (pyStrip (S "chicken wrap with rice"))) (S "rice") = true ∧
    hasSub (pyLower (pyStrip (S "chicken wrap with rice"))) (S "curry") = false ∧
    _normalize (some (S "chicken wrap with rice")) = S "Chicken Wrap" ∧
    S "Chicken Wrap" ≠ S "Chicken & Rice" := by decide

/-- Claim C3, amended: every name in the items list of an estimate is a member
of `CANDIDATES`, or the literal `"Meal"`, or the title-cased
trimmed-lowercased form of some classifier-produced raw label (the
fallback of the normalizer — the frozen claim omitted this case); every item
whose name is absent from the grams table has `default_grams` 100, except
the synthesized `"Meal"` fallback item, which has 150.  The zero-shot model
is invoked with `candidate_labels=CANDIDATES`, so its labels are assumed to
lie in `CANDIDATES`. -/
theorem C3_thm (cfg : Config) (cls : List (Except Unit (List ClsPred)))
    (zs : Option (Except Unit (List ZsPred)))
    (hzs : ∀ zpreds, zs = some (.ok zpreds) → ∀ pr ∈ zpreds, pr.label ∈ CANDIDATES) :
    ∀ i ∈ (aggregate cfg cls zs).items,
      (i.name ∈ CANDIDATES ∨ i.name = S "Meal" ∨
        ∃ preds, Except.ok preds ∈ cls ∧ ∃ pr ∈ preds,
          i.name = pyTitle (pyLower (pyStrip (predRaw pr)))) ∧
      (assocLookup DEFAULT_GRAMS i.name = none →
        i.default_grams = 100 ∨ (i.name = S "Meal" ∧ i.default_grams = 150)) := by
  intro i hi
  have hit : (aggregate cfg cls zs).items = finalItems cfg cls zs := rfl
  rw [hit, finalItems] at hi
  by_cases h0 : (itemsOf cfg cls zs).isEmpty
  · rw [if_pos h0] at hi
    have h1 : i = Item.mk (S "Meal") 150 0 := List.mem_singleton.mp hi
    subst h1
    exact ⟨Or.inr (Or.inl rfl), fun _ => Or.inr ⟨rfl, rfl⟩⟩
  · rw [if_neg h0, itemsOf] at hi
    rcases List.mem_map.mp hi with ⟨kv, hkv, hi2⟩
    subst hi2
    have hkv2 : kv ∈ runZs cfg zs (runCls cfg cls) := by
      have h2 := List.mem_of_mem_take hkv
      rw [rankedScores] at h2
      exact mem_sortDesc.mp h2
    have hkey : kv.1 ∈ (runZs cfg zs (runCls cfg cls)).map Prod.fst :=
      List.mem_map_of_mem _ hkv2
    constructor
    · rcases runZs_keysMap hkey with h1 | ⟨zpreds, hzeq, pr, hpr, heq⟩
      · rcases runCls_keysMap h1 with ⟨preds, hmem, pr, hpr, heq⟩
        rcases normCore_cases (pyLower (pyStrip (predRaw pr))) with hA | hB
        · exact Or.inl (by rw [show (Item.mk kv.1 (gramsOf kv.1) (roundQ4 kv.2)).name = kv.1 from rfl, heq]; exact hA)
        · exact Or.inr (Or.inr ⟨preds, hmem, pr, hpr, by
            rw [show (Item.mk kv.1 (gramsOf kv.1) (roundQ4 kv.2)).name = kv.1 from rfl, heq]; exact hB⟩)
      · refine Or.inl ?_
        rw [show (Item.mk kv.1 (gramsOf kv.1) (roundQ4 kv.2)).name = kv.1 from rfl, heq]
        exact hzs zpreds hzeq pr hpr
    · intro hnone
      have hnone2 : assocLookup DEFAULT_GRAMS kv.1 = none := hnone
      refine Or.inl ?_
      show gramsOf kv.1 = 100
      rw [gramsOf, hnone2]
      rfl

/-- Witness for C3: the fallback run (no classifier, no zero-shot) yields
the `"Meal"` item, which satisfies the amended invariant. -/
theorem C3_witness :
    ((Item.mk (S "Meal") 150 0).name ∈ CANDIDATES ∨
      (Item.mk (S "Meal") 150 0).name = S "Meal" ∨
      ∃ preds, Except.ok preds ∈ ([] : List (Except Unit (List ClsPred))) ∧ ∃ pr ∈ preds,
        (Item.mk (S "Meal") 150 0).name = pyTitle (pyLower (pyStrip (predRaw pr)))) ∧
    (assocLookup DEFAULT_GRAMS (Item.mk (S "Meal") 150 0).name = none →
      (Item.mk (S "Meal") 150 0).default_grams = 100 ∨
        ((Item.mk (S "Meal") 150 0).name = S "Meal" ∧
          (Item.mk (S "Meal") 150 0).default_grams = 150)) :=
  C3_thm cfgDefault [] none (fun zpreds h => nomatch h) (Item.mk (S "Meal") 150 0) (by decide)

/-- Counterexample for C3 as frozen: a classifier label `"dragonfruit
pudding"` produces the out-of-vocabulary item name `"Dragonfruit Pudding"`,
and the `"Meal"` fallback item has `default_grams` 150 although `"Meal"` is
absent from the grams table. -/
theorem C3_counterexample :
    (aggregate cfgDefault [.ok [ClsPred.mk (some (S "dragonfruit pudding")) none (some (9/10))]]
        none).items = [Item.mk (S "Dragonfruit Pudding") 100 (27/50)] ∧
    (S "Dragonfruit Pudding" ∉ CANDIDATES ∧ S "Dragonfruit Pudding" ≠ S "Meal") ∧
    (aggregate cfgDefault [] none).items = [Item.mk (S "Meal") 150 0] ∧
    (assocLookup DEFAULT_GRAMS (S "Meal") = none ∧ (150 : Nat) ≠ 100) := by decide

/-- Claim C4: a single configured classifier returning exactly
`[("Oatmeal", 0.9)]` with weight 0.6 and no zero-shot model yields the top
item `{name: "Oatmeal", default_grams: 100, confidence: 0.54}`, and since
no second candidate exists the headline is `"Oatmeal"`. -/
theorem C4_thm :
    estimate cfgDefault (some (S "photo.png")) none
      [.ok [ClsPred.mk (some (S "Oatmeal")) none (some 0.9)]] none =
      .ok (EstimationResult.mk (S "Oatmeal") [Item.mk (S "Oatmeal") 100 0.54]) := by
  rfl

/-- Claim C5: the headline equals the name of the top item, except when the top
confidence is strictly below the threshold and a second item exists, in
which case it is `"<first> or <second>"`. -/
theorem C5_thm (cfg : Config) (cls : List (Except Unit (List ClsPred)))
    (zs : Option (Except Unit (List ZsPred))) :
    (∀ i rest, (aggregate cfg cls zs).items = i :: rest →
      (rest = [] ∨ cfg.conf_thres ≤ i.confidence) →
      (aggregate cfg cls zs).dish_name = i.name) ∧
    (∀ i j rest, (aggregate cfg cls zs).items = i :: j :: rest →
      i.confidence < cfg.conf_thres →
      (aggregate cfg cls zs).dish_name = i.name ++ S " or " ++ j.name) := by
  have hd : (aggregate cfg cls zs).dish_name =
      pyHeadline cfg.conf_thres ((aggregate cfg cls zs).items) := rfl
  constructor
  · intro i rest hit hcase
    rw [hd, hit]
    rcases hcase with rfl | hge
    · rfl
    · cases rest with
      | nil => rfl
      | cons j t => simp [pyHeadline, not_lt.mpr hge]
  · intro i j rest hit hlt
    rw [hd, hit]
    simp [pyHeadline, hlt]

/-- Witness for C5, the concrete instance given in the claim: top two items
`("Biryani", 0.50)` and `("Chicken Curry", 0.40)` under threshold 0.55 give
headline `"Biryani or Chicken Curry"`. -/
theorem C5_witness :
    (aggregate cfgDefault []
      (some (.ok [ZsPred.mk (S "Biryani") (some (5/11)),
                  ZsPred.mk (S "Chicken Curry") (some (4/11))]))).dish_name =
      S "Biryani or Chicken Curry" := by
  have h := (C5_thm cfgDefault []
      (some (.ok [ZsPred.mk (S "Biryani") (some (5/11)),
                  ZsPred.mk (S "Chicken Curry") (some (4/11))]))).2
    (Item.mk (S "Biryani") 100 (1/2)) (Item.mk (S "Chicken Curry") 220 (2/5)) []
    (by decide) (by decide)
  exact h.trans (by decide)

/-- Claim C6: the score-merge update is idempotent — applying
`score[name] = max(score.get(name, 0), confidence * weight)` twice with the
same pair yields the same map as applying it once. -/
theorem C6_thm (scores : List (Label × ℚ)) (name : Label) (confidence weight : ℚ) :
    updateScore (updateScore scores name (confidence * weight)) name (confidence * weight) =
      updateScore scores name (confidence * weight) :=
  updateScore_idem scores name (confidence * weight)

/-- Claim C7: a raw label matching no alias key and no substring rule
normalizes to the title-cased form of its trimmed lowercased self, and the
normalizer is idempotent on that output. -/
theorem C7_thm (lbl : Label)
    (halias : assocLookup ALIASES (pyLower (pyStrip lbl)) = none)
    (hrules : fuzzyRules (pyLower (pyStrip lbl)) = none) :
    _normalize (some lbl) = pyTitle (pyLower (pyStrip lbl)) ∧
    _normalize (some (pyTitle (pyLower (pyStrip lbl)))) = pyTitle (pyLower (pyStrip lbl)) := by
  have hstrip_s : pyStrip (pyLower (pyStrip lbl)) = pyLower (pyStrip lbl) :=
    pyStrip_eq_self_of_mask (maskWS_pyLower _) (pyStrip_pyStrip lbl)
  have hlower_s : pyLower (pyLower (pyStrip lbl)) = pyLower (pyStrip lbl) :=
    pyLower_pyLower _
  have hstrip_t : pyStrip (pyTitle (pyLower (pyStrip lbl))) = pyTitle (pyLower (pyStrip lbl)) :=
    pyStrip_eq_self_of_mask (maskWS_titleAux false _) hstrip_s
  have hlower_t : pyLower (pyTitle (pyLower (pyStrip lbl))) = pyLower (pyStrip lbl) := by
    rw [pyTitle, pyLower_titleAux, hlower_s]
  constructor
  · rw [_normalize, Option.getD_some, normCore, halias, hrules]
    exact ite_self _
  · rw [_normalize, Option.getD_some, hstrip_t, hlower_t, normCore, halias, hrules]
    exact ite_self _

/-- Witness for C7: `"kiwi pudding"` matches no alias and no rule, yields
`"Kiwi Pudding"`, and normalizing `"Kiwi Pudding"` again is fixed. -/
theorem C7_witness :
    assocLookup ALIASES (pyLower (pyStrip (S "kiwi pudding"))) = none ∧
    fuzzyRules (pyLower (pyStrip (S "kiwi pudding"))) = none ∧
    (_normalize (some (S "kiwi pudding")) = pyTitle (pyLower (pyStrip (S "kiwi pudding"))) ∧
     _normalize (some (pyTitle (pyLower (pyStrip (S "kiwi pudding"))))) =
       pyTitle (pyLower (pyStrip (S "kiwi pudding")))) :=
  ⟨by decide, by decide, C7_thm (S "kiwi pudding") (by decide) (by decide)⟩

/-- Claim C8: with a positive `MAX_ITEMS`, the items list of every estimate has
between 1 and `MAX_ITEMS` entries, regardless of how many labels the models
produce. -/
theorem C8_thm (cfg : Config) (cls : List (Except Unit (List ClsPred)))
    (zs : Option (Except Unit (List ZsPred))) (h : 1 ≤ cfg.max_items) :
    1 ≤ (aggregate cfg cls zs).items.length ∧
      (aggregate cfg cls zs).items.length ≤ cfg.max_items := by
  have hit : (aggregate cfg cls zs).items = finalItems cfg cls zs := rfl
  rw [hit, finalItems]
  by_cases h0 : (itemsOf cfg cls zs).isEmpty
  · rw [if_pos h0]
    exact ⟨le_refl _, h⟩
  · rw [if_neg h0]
    have hlen : (itemsOf cfg cls zs).length =
        min cfg.max_items (rankedScores cfg cls zs).length := by
      simp [itemsOf]
    have hpos : (itemsOf cfg cls zs) ≠ [] := by
      simpa [List.isEmpty_iff] using h0
    have hpos2 : 0 < (itemsOf cfg cls zs).length := List.length_pos.mpr hpos
    exact ⟨hpos2, hlen ▸ min_le_left _ _⟩

/-- Witness for C8: the default configuration has `MAX_ITEMS = 4` and the
fallback run returns exactly one item. -/
theorem C8_witness :
    1 ≤ cfgDefault.max_items ∧
    (1 ≤ (aggregate cfgDefault [] none).items.length ∧
      (aggregate cfgDefault [] none).items.length ≤ cfgDefault.max_items) :=
  ⟨by decide, C8_thm cfgDefault [] none (by decide)⟩

/-- Claim C9: calling `estimate` with neither an image path nor image bytes
(each `None` or empty, hence falsy) raises immediately; the result does not
depend on any model outcome, so no model is invoked and no score is
recorded. -/
theorem C9_thm (cfg : Config) (image_path image_bytes : Option (List Nat))
    (cls : List (Except Unit (List ClsPred))) (zs : Option (Except Unit (List ZsPred)))
    (hp : truthyOpt image_path = false) (hb : truthyOpt image_bytes = false) :
    estimate cfg image_path image_bytes cls zs = .error () := by
  simp [estimate, hp, hb]

/-- Witness for C9: both arguments `None`. -/
theorem C9_witness :
    truthyOpt (none : Option (List Nat)) = false ∧
    estimate cfgDefault none none [] none = .error () :=
  ⟨rfl, C9_thm cfgDefault none none [] none rfl rfl⟩

/-- Claim C10: normalizing `None`, or a label that trims to the empty
string, returns the empty string, which is not in `CANDIDATES` — the
normalizer substitutes no dish name for empty input. -/
theorem C10_thm :
    (_normalize none = [] ∧ ([] : Label) ∉ CANDIDATES) ∧
    ∀ s : Label, pyStrip s = [] → _normalize (some s) = [] := by
  refine ⟨⟨by decide, by decide⟩, ?_⟩
  intro s h
  rw [_normalize, Option.getD_some, h]
  decide

/-- Witness for C10: a whitespace-only label. -/
theorem C10_witness :
    pyStrip (S "   ") = [] ∧ _normalize (some (S "   ")) = [] :=
  ⟨by decide, C10_thm.2 (S "   ") (by decide)⟩

end ClaimTheorems

end Gymmis
